import Mathlib

/-!
Verification of the RESP3 client-side command encoder (writer.go).

The encoder serializes a command (an ordered sequence of arguments) as a
RESP3 array of blob strings and writes it to a buffered sink, flushing at
the end.  Go strings and byte slices are modelled as lists of byte values
(`List Nat`, each element a byte).  The buffered writer is modelled as a
pair of byte lists: the unflushed buffer and the already-flushed output.
-/

namespace Resp3

/-- Modelled from the spec: the two-byte terminator sequence
(carriage-return, line-feed) used after every length field and payload.
The constant `CRLFByte` is declared elsewhere in the repository. -/
def CRLFByte : List Nat := [13, 10]

/-- Modelled from the spec: the single-byte RESP3 array type marker,
the byte value of the asterisk character.  The constant `TypeArray` is
declared elsewhere in the repository. -/
def TypeArray : Nat := 42

/-- Modelled from the spec: the single-byte RESP3 blob-string type marker,
the byte value of the dollar character.  The constant `TypeBlobString` is
declared elsewhere in the repository. -/
def TypeBlobString : Nat := 36

/-- Fuel-driven helper for decimal formatting: accumulates the base-10
digit bytes of `n` (least significant digit pushed first onto `acc`).
This embeds the behaviour of `strconv.Itoa` on natural numbers. -/
def natToDigitsAux : Nat → Nat → List Nat → List Nat
  | 0, _, acc => acc
  | fuel + 1, n, acc =>
    if n < 10 then (48 + n) :: acc
    else natToDigitsAux fuel (n / 10) ((48 + n % 10) :: acc)

/-- Decimal byte representation of a natural number, as produced by
`strconv.Itoa`: most significant digit first, no leading zeros, `0`
rendered as the single byte `48`. -/
def natToDigits (n : Nat) : List Nat := natToDigitsAux (n + 1) n []

/-- Decimal byte representation of a signed integer, as produced by
`strconv.FormatInt(v, 10)`: an optional leading minus byte (`45`)
followed by the digits of the absolute value. -/
def intToDigits (n : Int) : List Nat :=
  if n < 0 then 45 :: natToDigits n.natAbs else natToDigits n.toNat

/-- Byte representation of a boolean as produced by
`strconv.FormatBool`: the literal text `true` or `false`. -/
def boolBytes (b : Bool) : List Nat :=
  if b then [116, 114, 117, 101] else [102, 97, 108, 115, 101]

/-- The buffered writer: `buf` holds bytes written but not yet flushed,
`out` holds bytes already delivered to the underlying sink.  This embeds
the `Writer` struct wrapping a `bufio.Writer`. -/
structure Writer where
  buf : List Nat
  out : List Nat
deriving DecidableEq, Repr

/-- bufio WriteByte: append one byte to the buffer. -/
def Writer.wbyte (w : Writer) (b : Nat) : Writer :=
  { w with buf := w.buf ++ [b] }

/-- bufio Write / WriteString: append a byte sequence to the buffer. -/
def Writer.wbytes (w : Writer) (bs : List Nat) : Writer :=
  { w with buf := w.buf ++ bs }

/-- bufio Flush: deliver all buffered bytes to the sink. -/
def Writer.flush (w : Writer) : Writer :=
  { buf := [], out := w.out ++ w.buf }

/-- The method writeString of the source: emit one blob-string frame for
the payload `str` — type marker, decimal byte length, terminator, the
payload bytes verbatim, terminator. -/
def Writer.writeString (w : Writer) (str : List Nat) : Writer :=
  ((((w.wbyte TypeBlobString).wbytes (natToDigits str.length)).wbytes
      CRLFByte).wbytes str).wbytes CRLFByte

/-- A typed argument value passed to SendCommands through the open Go
interface type.  The first five constructors are the dynamic types the
type switch matches (string, int64, int, byte slice, bool); the remaining
constructors are dynamic types that fall into the default branch, carrying
the integer value the fmt verb v would print. -/
inductive RArg where
  | str (s : List Nat)
  | i64 (n : Int)
  | int (n : Int)
  | bytes (b : List Nat)
  | boolean (b : Bool)
  | i32 (n : Int)
  | i16 (n : Int)
  | i8 (n : Int)
  | u64 (n : Nat)
  | u32 (n : Nat)
  | other (v : List Nat)
deriving DecidableEq, Repr

/-- The type switch of SendCommands: the textual conversion applied to a
supported argument, or `none` for the default branch. -/
def encodeArg : RArg → Option (List Nat)
  | .str s => some s
  | .i64 n => some (intToDigits n)
  | .int n => some (intToDigits n)
  | .bytes b => some b
  | .boolean b => some (boolBytes b)
  | _ => none

/-- The fmt verb v formatting of an argument value, used by the error
message of the default branch. -/
def goV : RArg → List Nat
  | .str s => s
  | .i64 n => intToDigits n
  | .int n => intToDigits n
  | .bytes b => b
  | .boolean b => boolBytes b
  | .i32 n => intToDigits n
  | .i16 n => intToDigits n
  | .i8 n => intToDigits n
  | .u64 n => natToDigits n
  | .u32 n => natToDigits n
  | .other v => v

/-- The error values the encoder can return.  `unsupported v` embeds the
error built by fmt.Errorf with the message text
`unsupported data type: ` followed by the v-formatted argument value. -/
inductive GoError where
  | unsupported (v : List Nat)
deriving DecidableEq, Repr

/-- The argument loop of SendCommands: write one blob-string frame per
supported argument; on the first unsupported argument return the error
immediately, leaving the writer as it stands (no flush). -/
def Writer.sendLoop : Writer → List RArg → Option GoError × Writer
  | w, [] => (none, w)
  | w, a :: rest =>
    match encodeArg a with
    | some p => (w.writeString p).sendLoop rest
    | none => (some (.unsupported (goV a)), w)

/-- The method SendCommands of the source: write the array header, then
one blob-string frame per argument via the type switch; flush on success,
return the error without flushing on the first unsupported argument. -/
def Writer.sendCommands (w : Writer) (args : List RArg) : Option GoError × Writer :=
  let w1 := ((w.wbyte TypeArray).wbytes (natToDigits args.length)).wbytes CRLFByte
  match w1.sendLoop args with
  | (none, w2) => (none, w2.flush)
  | (some e, w2) => (some e, w2)

/-- The method WriteCommand of the source: write the array header, then
one blob-string frame per text argument inline, then flush. -/
def Writer.writeCommand (w : Writer) (args : List (List Nat)) : Writer :=
  let w1 := ((w.wbyte TypeArray).wbytes (natToDigits args.length)).wbytes CRLFByte
  let w2 := args.foldl (fun acc arg =>
    ((((acc.wbyte TypeBlobString).wbytes (natToDigits arg.length)).wbytes
        CRLFByte).wbytes arg).wbytes CRLFByte) w1
  w2.flush

/-- The method WriteByteCommand of the source: write the array header,
then one blob-string frame per byte-slice argument inline, then flush. -/
def Writer.writeByteCommand (w : Writer) (args : List (List Nat)) : Writer :=
  let w1 := ((w.wbyte TypeArray).wbytes (natToDigits args.length)).wbytes CRLFByte
  let w2 := args.foldl (fun acc arg =>
    ((((acc.wbyte TypeBlobString).wbytes (natToDigits arg.length)).wbytes
        CRLFByte).wbytes arg).wbytes CRLFByte) w1
  w2.flush

/-- A fresh writer over a fresh sink, as built by NewWriter. -/
def newWriter : Writer := { buf := [], out := [] }

/-- The bytes of one blob-string frame for a payload, stated as a pure
function of the payload. -/
def blobFrame (p : List Nat) : List Nat :=
  TypeBlobString :: natToDigits p.length ++ CRLFByte ++ p ++ CRLFByte

/-- The bytes of a whole command frame: array header followed by one
blob-string frame per argument. -/
def cmdBytes (args : List (List Nat)) : List Nat :=
  TypeArray :: natToDigits args.length ++ CRLFByte ++ (args.map blobFrame).flatten

/-- The first error produced by the type switch over an argument list,
if any. -/
def firstGoError : List RArg → Option GoError
  | [] => none
  | a :: rest =>
    match encodeArg a with
    | some _ => firstGoError rest
    | none => some (.unsupported (goV a))

/-- The blob-string frames SendCommands writes for an argument list:
frames for the supported arguments up to (excluding) the first
unsupported one; all frames when every argument is supported. -/
def framesWritten : List RArg → List Nat
  | [] => []
  | a :: rest =>
    match encodeArg a with
    | some p => blobFrame p ++ framesWritten rest
    | none => []

/-- The bytes SendCommands appends to the writer (flushed or not):
the array header plus the frames written before success or error. -/
def sendDelta (args : List RArg) : List Nat :=
  TypeArray :: natToDigits args.length ++ CRLFByte ++ framesWritten args

/-- A byte is a decimal digit byte. -/
def isDigit (b : Nat) : Bool := 48 ≤ b && b ≤ 57

/-- Value of a big-endian digit-byte list. -/
def digitsVal (ds : List Nat) : Nat :=
  ds.foldl (fun a d => a * 10 + (d - 48)) 0

/-- Parse a maximal nonempty run of digit bytes at the head of the input,
returning its value and the remaining input. -/
def parseLen (bs : List Nat) : Option (Nat × List Nat) :=
  let ds := bs.takeWhile isDigit
  if ds.isEmpty then none
  else some (digitsVal ds, bs.dropWhile isDigit)

/-- Consume a CRLF terminator at the head of the input. -/
def expectCRLF : List Nat → Option (List Nat)
  | 13 :: 10 :: rest => some rest
  | _ => none

/-- Parse one blob-string frame: marker, declared decimal length,
terminator, exactly that many payload bytes, terminator.  Returns the
payload and the remaining input. -/
def parseBlob (bs : List Nat) : Option (List Nat × List Nat) :=
  match bs with
  | 36 :: rest =>
    match parseLen rest with
    | some (n, r1) =>
      match expectCRLF r1 with
      | some r2 =>
        if n ≤ r2.length then
          match expectCRLF (r2.drop n) with
          | some r3 => some (r2.take n, r3)
          | none => none
        else none
      | none => none
    | none => none
  | _ => none

/-- Parse `n` consecutive blob-string frames. -/
def parseBlobs : Nat → List Nat → Option (List (List Nat) × List Nat)
  | 0, bs => some ([], bs)
  | n + 1, bs =>
    match parseBlob bs with
    | some (p, r) =>
      match parseBlobs n r with
      | some (ps, r2) => some (p :: ps, r2)
      | none => none
    | none => none

/-- Parse a whole command frame: array marker, declared element count,
terminator, that many blob-string frames, end of input.  Returns the
recovered payload list. -/
def parseCommand (bs : List Nat) : Option (List (List Nat)) :=
  match bs with
  | 42 :: rest =>
    match parseLen rest with
    | some (n, r1) =>
      match expectCRLF r1 with
      | some r2 =>
        match parseBlobs n r2 with
        | some (ps, []) => some ps
        | _ => none
      | none => none
    | none => none
  | _ => none

/-! ### Decimal formatting lemmas -/

theorem natToDigitsAux_acc (fuel : Nat) : ∀ (n : Nat) (acc : List Nat),
    natToDigitsAux fuel n acc = natToDigitsAux fuel n [] ++ acc := by
  induction fuel with
  | zero => intro n acc; simp [natToDigitsAux]
  | succ fuel ih =>
    intro n acc
    by_cases h : n < 10
    · simp [natToDigitsAux, h]
    · simp only [natToDigitsAux, if_neg h]
      rw [ih (n / 10) ((48 + n % 10) :: acc), ih (n / 10) [48 + n % 10]]
      simp

theorem natToDigitsAux_fuel (n : Nat) : ∀ (f g : Nat), n < f → n < g →
    natToDigitsAux f n [] = natToDigitsAux g n [] := by
  induction n using Nat.strong_induction_on with
  | _ n ih =>
    intro f g hf hg
    match f, g with
    | f + 1, g + 1 =>
      by_cases h : n < 10
      · simp [natToDigitsAux, h]
      · simp only [natToDigitsAux, if_neg h]
        rw [natToDigitsAux_acc f, natToDigitsAux_acc g]
        have hd : n / 10 < n := Nat.div_lt_self (by omega) (by omega)
        rw [ih (n / 10) hd f g (by omega) (by omega)]

theorem natToDigitsAux_succ (fuel n : Nat) (acc : List Nat) :
    natToDigitsAux (fuel + 1) n acc =
      if n < 10 then (48 + n) :: acc
      else natToDigitsAux fuel (n / 10) ((48 + n % 10) :: acc) := rfl

theorem natToDigits_ten_le (n : Nat) (h : ¬ n < 10) :
    natToDigits n = natToDigits (n / 10) ++ [48 + n % 10] := by
  have hd : n / 10 < n := Nat.div_lt_self (by omega) (by omega)
  calc natToDigits n = natToDigitsAux n (n / 10) [48 + n % 10] := by
        rw [natToDigits, natToDigitsAux_succ, if_neg h]
    _ = natToDigitsAux n (n / 10) [] ++ [48 + n % 10] := natToDigitsAux_acc n (n / 10) _
    _ = natToDigitsAux (n / 10 + 1) (n / 10) [] ++ [48 + n % 10] := by
        rw [natToDigitsAux_fuel (n / 10) n (n / 10 + 1) (by omega) (by omega)]
    _ = natToDigits (n / 10) ++ [48 + n % 10] := rfl

theorem natToDigits_lt_ten (n : Nat) (h : n < 10) : natToDigits n = [48 + n] := by
  simp [natToDigits, natToDigitsAux, h]

theorem natToDigits_ne_nil (n : Nat) : natToDigits n ≠ [] := by
  by_cases h : n < 10
  · rw [natToDigits_lt_ten n h]; simp
  · rw [natToDigits_ten_le n h]; simp

theorem natToDigits_all_digit (n : Nat) : ∀ d ∈ natToDigits n, isDigit d = true := by
  induction n using Nat.strong_induction_on with
  | _ n ih =>
    by_cases h : n < 10
    · rw [natToDigits_lt_ten n h]
      intro d hd
      simp only [List.mem_singleton] at hd
      subst hd
      simp only [isDigit, decide_eq_true_eq, Bool.and_eq_true]
      omega
    · rw [natToDigits_ten_le n h]
      intro d hd
      rcases List.mem_append.mp hd with h1 | h1
      · exact ih (n / 10) (Nat.div_lt_self (by omega) (by omega)) d h1
      · simp only [List.mem_singleton] at h1
        subst h1
        have : n % 10 < 10 := Nat.mod_lt _ (by omega)
        simp only [isDigit, decide_eq_true_eq, Bool.and_eq_true]
        omega

theorem digitsVal_append_single (ds : List Nat) (d : Nat) :
    digitsVal (ds ++ [d]) = digitsVal ds * 10 + (d - 48) := by
  simp [digitsVal, List.foldl_append]

theorem digitsVal_natToDigits (n : Nat) : digitsVal (natToDigits n) = n := by
  induction n using Nat.strong_induction_on with
  | _ n ih =>
    by_cases h : n < 10
    · rw [natToDigits_lt_ten n h]
      simp [digitsVal]
    · rw [natToDigits_ten_le n h, digitsVal_append_single,
        ih (n / 10) (Nat.div_lt_self (by omega) (by omega))]
      omega

theorem natToDigits_head_ne_zero (n : Nat) (h : n ≠ 0) :
    (natToDigits n).head? ≠ some 48 := by
  induction n using Nat.strong_induction_on with
  | _ n ih =>
    by_cases h10 : n < 10
    · rw [natToDigits_lt_ten n h10]
      simp only [List.head?_cons, ne_eq, Option.some.injEq]
      omega
    · rw [natToDigits_ten_le n h10]
      have hne := natToDigits_ne_nil (n / 10)
      rw [List.head?_append_of_ne_nil _ hne]
      exact ih (n / 10) (Nat.div_lt_self (by omega) (by omega)) (by omega)

/-! ### Writer state characterizations -/

theorem writeString_eq (w : Writer) (p : List Nat) :
    w.writeString p = { w with buf := w.buf ++ blobFrame p } := by
  simp [Writer.writeString, Writer.wbyte, Writer.wbytes, blobFrame]

theorem writeCommand_eq (w : Writer) (args : List (List Nat)) :
    w.writeCommand args = { buf := [], out := w.out ++ w.buf ++ cmdBytes args } := by
  have loop : ∀ (l : List (List Nat)) (v : Writer),
      l.foldl (fun acc arg =>
        ((((acc.wbyte TypeBlobString).wbytes (natToDigits arg.length)).wbytes
            CRLFByte).wbytes arg).wbytes CRLFByte) v
        = { v with buf := v.buf ++ (l.map blobFrame).flatten } := by
    intro l
    induction l with
    | nil => intro v; simp
    | cons a t iht =>
      intro v
      simp only [List.foldl_cons, iht, List.map_cons, List.flatten_cons]
      simp [Writer.wbyte, Writer.wbytes, blobFrame]
  simp only [Writer.writeCommand, loop]
  simp [Writer.wbyte, Writer.wbytes, Writer.flush, cmdBytes]

theorem writeByteCommand_eq (w : Writer) (args : List (List Nat)) :
    w.writeByteCommand args = { buf := [], out := w.out ++ w.buf ++ cmdBytes args } := by
  have loop : ∀ (l : List (List Nat)) (v : Writer),
      l.foldl (fun acc arg =>
        ((((acc.wbyte TypeBlobString).wbytes (natToDigits arg.length)).wbytes
            CRLFByte).wbytes arg).wbytes CRLFByte) v
        = { v with buf := v.buf ++ (l.map blobFrame).flatten } := by
    intro l
    induction l with
    | nil => intro v; simp
    | cons a t iht =>
      intro v
      simp only [List.foldl_cons, iht, List.map_cons, List.flatten_cons]
      simp [Writer.wbyte, Writer.wbytes, blobFrame]
  simp only [Writer.writeByteCommand, loop]
  simp [Writer.wbyte, Writer.wbytes, Writer.flush, cmdBytes]

theorem sendLoop_eq : ∀ (args : List RArg) (w : Writer),
    w.sendLoop args = (firstGoError args, { w with buf := w.buf ++ framesWritten args }) := by
  intro args
  induction args with
  | nil => intro w; simp [Writer.sendLoop, firstGoError, framesWritten]
  | cons a rest ih =>
    intro w
    simp only [Writer.sendLoop, firstGoError, framesWritten]
    cases h : encodeArg a with
    | none => simp
    | some p =>
      simp only [ih, writeString_eq]
      simp

theorem sendCommands_eq (w : Writer) (args : List RArg) :
    w.sendCommands args =
      match firstGoError args with
      | none => (none, { buf := [], out := w.out ++ w.buf ++ sendDelta args })
      | some e => (some e, { buf := w.buf ++ sendDelta args, out := w.out }) := by
  simp only [Writer.sendCommands, sendLoop_eq, sendDelta]
  cases h : firstGoError args with
  | none => simp [Writer.wbyte, Writer.wbytes, Writer.flush]
  | some e => simp [Writer.wbyte, Writer.wbytes]

/-! ### Parser round-trip lemmas -/

theorem takeWhile_digits (ds rest : List Nat) (hds : ∀ d ∈ ds, isDigit d = true) :
    (ds ++ 13 :: rest).takeWhile isDigit = ds ∧
      (ds ++ 13 :: rest).dropWhile isDigit = 13 :: rest := by
  have h13 : isDigit 13 = false := rfl
  induction ds with
  | nil =>
    constructor
    · simp [List.takeWhile_cons, h13]
    · simp [List.dropWhile_cons, h13]
  | cons d t ih =>
    have hd : isDigit d = true := hds d (List.mem_cons_self d t)
    have ht : ∀ x ∈ t, isDigit x = true := fun x hx => hds x (List.mem_cons_of_mem d hx)
    obtain ⟨h1, h2⟩ := ih ht
    constructor
    · simp [List.takeWhile_cons, hd, h1]
    · simp [List.dropWhile_cons, hd, h2]

theorem parseLen_digits (n : Nat) (rest : List Nat) :
    parseLen (natToDigits n ++ 13 :: rest) = some (n, 13 :: rest) := by
  obtain ⟨h1, h2⟩ := takeWhile_digits (natToDigits n) rest (natToDigits_all_digit n)
  simp only [parseLen, h1, h2, digitsVal_natToDigits]
  rw [if_neg (by simp [natToDigits_ne_nil n])]

theorem parseBlob_blobFrame (p rest : List Nat) :
    parseBlob (blobFrame p ++ rest) = some (p, rest) := by
  have hshape : blobFrame p ++ rest
      = 36 :: (natToDigits p.length ++ 13 :: (10 :: (p ++ 13 :: 10 :: rest))) := by
    simp [blobFrame, TypeBlobString, CRLFByte]
  rw [hshape]
  simp only [parseBlob, parseLen_digits, expectCRLF]
  rw [if_pos (by simp), List.drop_left, List.take_left]

theorem parseBlobs_frames : ∀ (args : List (List Nat)) (rest : List Nat),
    parseBlobs args.length ((args.map blobFrame).flatten ++ rest) = some (args, rest) := by
  intro args
  induction args with
  | nil => intro rest; simp [parseBlobs]
  | cons a t ih =>
    intro rest
    simp only [List.map_cons, List.flatten_cons, List.length_cons, parseBlobs,
      List.append_assoc, parseBlob_blobFrame a, ih rest]

theorem parseCommand_cmdBytes (args : List (List Nat)) :
    parseCommand (cmdBytes args) = some args := by
  have hshape : cmdBytes args
      = 42 :: (natToDigits args.length ++ 13 :: (10 :: (args.map blobFrame).flatten)) := by
    simp [cmdBytes, TypeArray, CRLFByte]
  rw [hshape]
  simp only [parseCommand, parseLen_digits, expectCRLF]
  have h2 := parseBlobs_frames args []
  rw [List.append_nil] at h2
  rw [h2]

/-! ### Supporting lemmas for the claim theorems -/

theorem sendFrames_of_map_some : ∀ (targs : List RArg) (ps : List (List Nat)),
    targs.map encodeArg = ps.map Option.some →
    firstGoError targs = none ∧ framesWritten targs = (ps.map blobFrame).flatten ∧
      targs.length = ps.length := by
  intro targs
  induction targs with
  | nil =>
    intro ps h
    cases ps with
    | nil => exact ⟨rfl, rfl, rfl⟩
    | cons p t => simp at h
  | cons a rest ih =>
    intro ps h
    cases ps with
    | nil => simp at h
    | cons p t =>
      simp only [List.map_cons, List.cons.injEq] at h
      obtain ⟨h1, h2⟩ := h
      obtain ⟨g1, g2, g3⟩ := ih t h2
      refine ⟨?_, ?_, ?_⟩
      · simp [firstGoError, h1, g1]
      · simp [framesWritten, h1, g2]
      · simp [g3]

theorem firstGoError_append (pre : List RArg) (a : RArg) (post : List RArg)
    (hpre : ∀ x ∈ pre, (encodeArg x).isSome) (ha : encodeArg a = none) :
    firstGoError (pre ++ a :: post) = some (.unsupported (goV a)) := by
  induction pre with
  | nil => simp [firstGoError, ha]
  | cons x t ih =>
    have hx : (encodeArg x).isSome := hpre x (List.mem_cons_self x t)
    obtain ⟨p, hp⟩ := Option.isSome_iff_exists.mp hx
    simp only [List.cons_append, firstGoError, hp]
    exact ih fun y hy => hpre y (List.mem_cons_of_mem x hy)

/-- An integer is rendered canonically in base 10: an optional leading
minus byte on a negative value, digit bytes only, no leading zeros, and
the digits evaluate back to the magnitude of the integer. -/
def canonicalIntRepr (n : Int) (ds : List Nat) : Prop :=
  if n < 0 then
    ∃ t, ds = 45 :: t ∧ t ≠ [] ∧ (∀ d ∈ t, isDigit d = true) ∧
      t.head? ≠ some 48 ∧ (digitsVal t : Int) = -n
  else
    ds ≠ [] ∧ (∀ d ∈ ds, isDigit d = true) ∧
      (ds.head? = some 48 → ds = [48]) ∧ (digitsVal ds : Int) = n

theorem intToDigits_canonical (n : Int) : canonicalIntRepr n (intToDigits n) := by
  unfold canonicalIntRepr intToDigits
  by_cases h : n < 0
  · rw [if_pos h, if_pos h]
    refine ⟨natToDigits n.natAbs, rfl, natToDigits_ne_nil _, natToDigits_all_digit _,
      natToDigits_head_ne_zero _ (by omega), ?_⟩
    rw [digitsVal_natToDigits]
    omega
  · rw [if_neg h, if_neg h]
    refine ⟨natToDigits_ne_nil _, natToDigits_all_digit _, ?_, ?_⟩
    · intro hh
      by_cases hz : n.toNat = 0
      · rw [hz, natToDigits_lt_ten 0 (by omega)]
      · exact absurd hh (natToDigits_head_ne_zero _ hz)
    · rw [digitsVal_natToDigits]
      omega

/-! ### Claim theorems -/

/-- C1: for every argument of every encode operation, the emitted
blob-string frame declares the raw byte length of the payload and carries
the payload bytes unmodified: the whole command frame parses back to
exactly the argument payloads, for WriteCommand, WriteByteCommand, and
SendCommands alike, whatever bytes the payloads contain. -/
theorem C1_length_is_byte_length_and_payload_verbatim
    (args ps : List (List Nat)) (targs : List RArg) (w : Writer)
    (h : targs.map encodeArg = ps.map Option.some) :
    parseCommand (cmdBytes args) = some args ∧
    (w.writeCommand args).out = w.out ++ w.buf ++ cmdBytes args ∧
    (w.writeByteCommand args).out = w.out ++ w.buf ++ cmdBytes args ∧
    w.sendCommands targs = (none, { buf := [], out := w.out ++ w.buf ++ cmdBytes ps }) ∧
    parseCommand (cmdBytes ps) = some ps := by
  obtain ⟨g1, g2, g3⟩ := sendFrames_of_map_some targs ps h
  refine ⟨parseCommand_cmdBytes args, by rw [writeCommand_eq],
    by rw [writeByteCommand_eq], ?_, parseCommand_cmdBytes ps⟩
  rw [sendCommands_eq, g1]
  simp only [sendDelta, g2, g3, cmdBytes]

/-- C1 witness: a byte payload containing the terminator bytes 13 10 and
a two-byte UTF-8 character payload both round-trip, with declared lengths
equal to raw byte counts (3 and 2). -/
theorem C1_length_is_byte_length_and_payload_verbatim_witness :
    ([RArg.bytes [13, 10, 65], RArg.str [195, 169]].map encodeArg
        = [[13, 10, 65], [195, 169]].map Option.some) ∧
    (parseCommand (cmdBytes [[13, 10, 65], [195, 169]]) = some [[13, 10, 65], [195, 169]] ∧
      (newWriter.writeCommand [[13, 10, 65], [195, 169]]).out
        = newWriter.out ++ newWriter.buf ++ cmdBytes [[13, 10, 65], [195, 169]] ∧
      (newWriter.writeByteCommand [[13, 10, 65], [195, 169]]).out
        = newWriter.out ++ newWriter.buf ++ cmdBytes [[13, 10, 65], [195, 169]] ∧
      newWriter.sendCommands [RArg.bytes [13, 10, 65], RArg.str [195, 169]]
        = (none, ⟨[],
            newWriter.out ++ newWriter.buf ++ cmdBytes [[13, 10, 65], [195, 169]]⟩) ∧
      parseCommand (cmdBytes [[13, 10, 65], [195, 169]]) = some [[13, 10, 65], [195, 169]]) :=
  ⟨by decide,
    C1_length_is_byte_length_and_payload_verbatim [[13, 10, 65], [195, 169]]
      [[13, 10, 65], [195, 169]] [RArg.bytes [13, 10, 65], RArg.str [195, 169]]
      newWriter (by decide)⟩

/-- C2: WriteCommand on the text arguments SET, key1, value1 flushes
exactly the bytes of the frame with array count 3 followed by the three
blob-string frames of declared lengths 3, 4 and 6, each payload verbatim
and in order. -/
theorem C2_set_key1_value1_exact_bytes :
    (newWriter.writeCommand [[83, 69, 84], [107, 101, 121, 49],
        [118, 97, 108, 117, 101, 49]]).out
      = [42, 51, 13, 10,
         36, 51, 13, 10, 83, 69, 84, 13, 10,
         36, 52, 13, 10, 107, 101, 121, 49, 13, 10,
         36, 54, 13, 10, 118, 97, 108, 117, 101, 49, 13, 10] ∧
    (newWriter.writeCommand [[83, 69, 84], [107, 101, 121, 49],
        [118, 97, 108, 117, 101, 49]]).buf = [] ∧
    cmdBytes [[83, 69, 84], [107, 101, 121, 49], [118, 97, 108, 117, 101, 49]]
      = TypeArray :: natToDigits 3 ++ CRLFByte
          ++ (blobFrame [83, 69, 84] ++ (blobFrame [107, 101, 121, 49]
          ++ (blobFrame [118, 97, 108, 117, 101, 49] ++ []))) := by
  decide

/-- C3: when the argument list contains an unsupported variant,
SendCommands returns the first unsupported-type error, leaves the
flushed output untouched (no flush occurs on the error path), and leaves
the array header plus the frames written before the offending argument
sitting unflushed in the buffer. -/
theorem C3_unsupported_aborts_without_flush (w : Writer) (args : List RArg)
    (e : GoError) (h : firstGoError args = some e) :
    w.sendCommands args = (some e, { buf := w.buf ++ sendDelta args, out := w.out }) := by
  rw [sendCommands_eq, h]

/-- C3 witness: on the arguments GET and an int32 value 7 the call fails
with the unsupported error for the byte 55 (the digit 7), nothing is
flushed, and the header plus the GET frame stay in the buffer. -/
theorem C3_unsupported_aborts_without_flush_witness :
    firstGoError [RArg.str [71, 69, 84], RArg.i32 7]
        = some (.unsupported [55]) ∧
    newWriter.sendCommands [RArg.str [71, 69, 84], RArg.i32 7]
      = (some (.unsupported [55]),
         { buf := newWriter.buf ++ sendDelta [RArg.str [71, 69, 84], RArg.i32 7],
           out := newWriter.out }) :=
  ⟨by decide,
    C3_unsupported_aborts_without_flush newWriter [RArg.str [71, 69, 84], RArg.i32 7]
      (.unsupported [55]) (by decide)⟩

/-- C5: every int64 or int argument is rendered as canonical base-10
digits with an optional leading minus and no leading zeros, and the
EXPIRE key1 10 command produces exactly the specified frame bytes. -/
theorem C5_integer_canonical_base10 :
    (∀ n : Int, canonicalIntRepr n (intToDigits n) ∧
      encodeArg (.i64 n) = some (intToDigits n) ∧
      encodeArg (.int n) = some (intToDigits n)) ∧
    newWriter.sendCommands [.str [69, 88, 80, 73, 82, 69], .str [107, 101, 121, 49], .i64 10]
      = (none, ⟨[],
          [42, 51, 13, 10,
           36, 54, 13, 10, 69, 88, 80, 73, 82, 69, 13, 10,
           36, 52, 13, 10, 107, 101, 121, 49, 13, 10,
           36, 50, 13, 10, 49, 48, 13, 10]⟩) := by
  refine ⟨fun n => ⟨intToDigits_canonical n, rfl, rfl⟩, ?_⟩
  decide

/-- C6: a boolean argument is encoded as the blob string true or false
(declared lengths 4 and 5), inside an ordinary array frame whose element
frame starts with the blob-string marker, not any other frame type. -/
theorem C6_bool_as_blob_text (b : Bool) :
    newWriter.sendCommands [.boolean b]
      = (none, { buf := [], out := cmdBytes [boolBytes b] }) ∧
    encodeArg (.boolean b) = some (boolBytes b) ∧
    blobFrame (boolBytes true) = [36, 52, 13, 10, 116, 114, 117, 101, 13, 10] ∧
    (boolBytes b).length = (if b then 4 else 5) ∧
    (cmdBytes [boolBytes b]).head? = some TypeArray ∧
    ((cmdBytes [boolBytes b]).drop 4).head? = some TypeBlobString := by
  cases b <;> decide

/-- C7: WriteCommand on zero arguments flushes exactly the empty array
frame, the marker byte, the digit 0 and the terminator, with no nested
frames. -/
theorem C7_empty_command :
    (newWriter.writeCommand []).out = [42, 48, 13, 10] ∧
    (newWriter.writeCommand []).buf = [] ∧
    cmdBytes [] = TypeArray :: natToDigits 0 ++ CRLFByte ++ [] := by
  decide

/-- C8 counterexample: two calls whose offending argument sits at a
different position (second versus first) and has a different dynamic
type (int32 versus int16) return the identical error value, so the
error identifies neither the position nor the observed type. -/
theorem C8_error_lacks_position_and_type :
    (newWriter.sendCommands [RArg.str [97], RArg.i32 5]).1
        = (newWriter.sendCommands [RArg.i16 5]).1 ∧
    (newWriter.sendCommands [RArg.str [97], RArg.i32 5]).1
        = some (GoError.unsupported [53]) := by
  decide

/-- C8 amended: the unsupported-type error returned by SendCommands
identifies the offending argument only by its formatted value (the fmt
verb v rendering), carrying neither its position nor its type. -/
theorem C8_error_names_offending_value (w : Writer) (pre post : List RArg)
    (a : RArg) (hpre : ∀ x ∈ pre, (encodeArg x).isSome) (ha : encodeArg a = none) :
    (w.sendCommands (pre ++ a :: post)).1 = some (.unsupported (goV a)) := by
  rw [sendCommands_eq, firstGoError_append pre a post hpre ha]

/-- C8 amended witness: with one supported argument before an int32
value 5, the error carries exactly the formatted value, the digit byte
53. -/
theorem C8_error_names_offending_value_witness :
    (∀ x ∈ [RArg.str [97]], (encodeArg x).isSome) ∧
    encodeArg (RArg.i32 5) = none ∧
    (newWriter.sendCommands ([RArg.str [97]] ++ RArg.i32 5 :: [])).1
      = some (.unsupported [53]) :=
  ⟨by decide, by decide,
    C8_error_names_offending_value newWriter [RArg.str [97]] [] (RArg.i32 5)
      (by decide) (by decide)⟩

/-- C9: only the int and int64 shapes are accepted among integer
arguments: int32, int16, int8 and the unsigned shapes fall into the
default branch and are rejected with the unsupported-type error, while
int64 and int convert to decimal digits. -/
theorem C9_only_int_and_int64_supported (n : Int) (m : Nat) (w : Writer) :
    encodeArg (.i32 n) = none ∧ encodeArg (.i16 n) = none ∧
    encodeArg (.i8 n) = none ∧ encodeArg (.u64 m) = none ∧
    encodeArg (.u32 m) = none ∧
    encodeArg (.i64 n) = some (intToDigits n) ∧
    encodeArg (.int n) = some (intToDigits n) ∧
    (w.sendCommands [.i32 n]).1 = some (.unsupported (intToDigits n)) := by
  refine ⟨rfl, rfl, rfl, rfl, rfl, rfl, rfl, ?_⟩
  rw [sendCommands_eq]
  simp [firstGoError, encodeArg, goV]

/-- C10: every encode operation is deterministic and state-independent:
the result value and the bytes appended to the stream (buffered plus
flushed) are pure functions of the argument values alone, so two
invocations of the same operation on the same arguments write
byte-for-byte identical output and return equal results. -/
theorem C10_output_depends_only_on_args (w : Writer) (args : List (List Nat))
    (targs : List RArg) :
    (w.writeCommand args).out ++ (w.writeCommand args).buf
        = (w.out ++ w.buf) ++ cmdBytes args ∧
    (w.writeByteCommand args).out ++ (w.writeByteCommand args).buf
        = (w.out ++ w.buf) ++ cmdBytes args ∧
    (w.sendCommands targs).2.out ++ (w.sendCommands targs).2.buf
        = (w.out ++ w.buf) ++ sendDelta targs ∧
    (w.sendCommands targs).1 = firstGoError targs := by
  rw [writeCommand_eq, writeByteCommand_eq, sendCommands_eq]
  cases h : firstGoError targs <;> simp

end Resp3
